import Mathlib

/-!
Verification of the student-management-system repository's core computations:
the gradebook aggregation (`calculateStudentTotal`, `getLetterGrade` in the
Gradebook component and `calculateLetterGrade` in the GradeEntry form), the
attendance session summary (`getStatusCounts` in the attendance page), the
dashboard attendance rate (the `attendanceRate` computation of
`getDashboardStats`), and the storage layer's upsert operations
(`createGrade`, `markAttendance`, `updateGrade`, `updateAttendance`,
`deleteGrade` in `server/storage.ts`, with the table shapes and insert
schemas from `shared/schema.ts`).

Numeric columns (`decimal` in the schema, JavaScript numbers in the client)
are modelled as exact rationals (`ℚ`); timestamps are abstract `Nat` ticks
supplied per call; database-generated row ids are `Nat` values supplied per
call. Dates are opaque strings, as in the `date` columns' wire format.
-/

namespace SMS

/-! ## Data model (shared/schema.ts) -/

/-- The `attendance_status` pg enum: `['PRESENT', 'ABSENT', 'LATE', 'EXCUSED']`. -/
inductive AttendanceStatus where
  | PRESENT
  | ABSENT
  | LATE
  | EXCUSED
deriving DecidableEq, Repr

/-- An `assessments` row as read by the Gradebook component: `id`,
`maxScore` (decimal), `weight` (decimal). The remaining columns (courseId,
name, type, dueDate, ...) are never consulted by the aggregation. -/
structure Assessment where
  id : String
  maxScore : ℚ
  weight : ℚ
deriving DecidableEq, Repr

/-- A `grades` row as read by the Gradebook component: `studentId`,
`assessmentId`, `score` (decimal). -/
structure Grade where
  studentId : String
  assessmentId : String
  score : ℚ
deriving DecidableEq, Repr

/-- A full `grades` row as stored by the storage layer. -/
structure GradeRow where
  id : Nat
  studentId : String
  assessmentId : String
  score : ℚ
  letterGrade : Option String
  feedback : Option String
  gradedBy : String
  gradedAt : Nat
  updatedAt : Nat
deriving DecidableEq, Repr

/-- `InsertGrade = z.infer<typeof insertGradeSchema>`: a `grades` insert with
`id`, `gradedAt` and `updatedAt` omitted. `createInsertSchema(grades)`
derives the validator from the column types alone, so `score` carries no
range constraint. -/
structure InsertGrade where
  studentId : String
  assessmentId : String
  score : ℚ
  letterGrade : Option String
  feedback : Option String
  gradedBy : String
deriving DecidableEq, Repr

/-- `Partial<InsertGrade>`, the body accepted by `PATCH /api/grades/:id`:
every field of `insertGradeSchema` made optional. Note that the key columns
`studentId` and `assessmentId` are among the patchable fields. -/
structure GradePatch where
  studentId : Option String
  assessmentId : Option String
  score : Option ℚ
  letterGrade : Option (Option String)
  feedback : Option (Option String)
  gradedBy : Option String
deriving DecidableEq, Repr

/-- A full `attendance` row as stored by the storage layer. -/
structure AttendanceRow where
  id : Nat
  studentId : String
  courseId : String
  date : String
  status : AttendanceStatus
  notes : Option String
  markedBy : String
  markedAt : Nat
deriving DecidableEq, Repr

/-- `InsertAttendance = z.infer<typeof insertAttendanceSchema>`: an
`attendance` insert with `id` and `markedAt` omitted. -/
structure InsertAttendance where
  studentId : String
  courseId : String
  date : String
  status : AttendanceStatus
  notes : Option String
  markedBy : String
deriving DecidableEq, Repr

/-- `Partial<InsertAttendance>`, the body accepted by
`PATCH /api/attendance/:id`. The key columns `studentId`, `courseId` and
`date` are among the patchable fields. -/
structure AttendancePatch where
  studentId : Option String
  courseId : Option String
  date : Option String
  status : Option AttendanceStatus
  notes : Option (Option String)
  markedBy : Option String
deriving DecidableEq, Repr

/-! ## Gradebook component (client/src/components/gradebook.tsx) -/

/-- `getGradeForStudentAssessment(studentId, assessmentId)`:
`grades.find(grade => grade.studentId === studentId &&
grade.assessmentId === assessmentId)`. -/
def getGradeForStudentAssessment (grades : List Grade) (studentId assessmentId : String) :
    Option Grade :=
  grades.find? fun grade => grade.studentId == studentId && grade.assessmentId == assessmentId

/-- `calculateStudentTotal(studentId)`: iterate over the (already
type-filtered) assessments accumulating `totalScore += currentScore * weight`
and `totalPossible += maxScore * weight`, where `currentScore` is the pending
edit in `gradeChanges` (a record keyed by the `studentId`, a dash, and the
assessment id) if present, else the recorded grade's score, else 0; the
result is `totalPossible > 0 ? (totalScore / totalPossible) * 100 : 0`. -/
def calculateStudentTotal (gradeChanges : List (String × ℚ)) (assessments : List Assessment)
    (grades : List Grade) (studentId : String) : ℚ :=
  let totals := assessments.foldl (fun acc assessment =>
    let grade := getGradeForStudentAssessment grades studentId assessment.id
    let gradeKey := studentId ++ "-" ++ assessment.id
    let currentScore := (gradeChanges.lookup gradeKey).getD
      (match grade with
       | some g => g.score
       | none => 0)
    (acc.1 + currentScore * assessment.weight,
     acc.2 + assessment.maxScore * assessment.weight)) ((0 : ℚ), (0 : ℚ))
  if totals.2 > 0 then totals.1 / totals.2 * 100 else 0

/-- `getLetterGrade(percentage)` from the Gradebook component: hard-coded
thresholds checked by a descending chain of ifs. -/
def getLetterGrade (percentage : ℚ) : String :=
  if percentage ≥ 90 then "A"
  else if percentage ≥ 80 then "B"
  else if percentage ≥ 70 then "C"
  else if percentage ≥ 60 then "D"
  else "F"

/-- `calculateLetterGrade(score, maxScore = 100)` from the GradeEntry form:
converts a raw score to a percentage and applies the same hard-coded
thresholds. -/
def calculateLetterGrade (score maxScore : ℚ) : String :=
  let percentage := score / maxScore * 100
  if percentage ≥ 90 then "A"
  else if percentage ≥ 80 then "B"
  else if percentage ≥ 70 then "C"
  else if percentage ≥ 60 then "D"
  else "F"

/-! Spec-side formulation of the weighted aggregation (spec §4.1):
`scoreOf(a)` is the score of the grade belonging to the student for
assessment `a` if one exists and 0 otherwise; the percentage is
`(Σ scoreOf(a)·weight(a)) / (Σ maxScore(a)·weight(a)) · 100` when the
denominator is positive, else 0. -/

/-- Spec §4.1: the looked-up contribution of one assessment. -/
def scoreOf (grades : List Grade) (studentId : String) (a : Assessment) : ℚ :=
  match getGradeForStudentAssessment grades studentId a.id with
  | some g => g.score
  | none => 0

/-- Spec §4.1: `totalEarned = Σ scoreOf(a) * weight(a)`. -/
def totalEarnedSpec (assessments : List Assessment) (grades : List Grade)
    (studentId : String) : ℚ :=
  (assessments.map fun a => scoreOf grades studentId a * a.weight).sum

/-- Spec §4.1: `totalPossible = Σ maxScore(a) * weight(a)`. -/
def totalPossibleSpec (assessments : List Assessment) : ℚ :=
  (assessments.map fun a => a.maxScore * a.weight).sum

/-! ## Attendance page (client, `getStatusCounts`) -/

/-- The shape of the `counts` object literal
`{ PRESENT: 0, ABSENT: 0, LATE: 0, EXCUSED: 0 }`. -/
structure StatusCounts where
  PRESENT : Nat
  ABSENT : Nat
  LATE : Nat
  EXCUSED : Nat
deriving DecidableEq, Repr

/-- `getStatusCounts()`: fold over `Object.values(attendanceData)` (the list
of statuses, one per student) incrementing the matching counter; a value that
is not a key of `counts` is skipped (`if (status in counts)`). -/
def getStatusCounts (statuses : List String) : StatusCounts :=
  statuses.foldl (fun counts status =>
    if status == "PRESENT" then { counts with PRESENT := counts.PRESENT + 1 }
    else if status == "ABSENT" then { counts with ABSENT := counts.ABSENT + 1 }
    else if status == "LATE" then { counts with LATE := counts.LATE + 1 }
    else if status == "EXCUSED" then { counts with EXCUSED := counts.EXCUSED + 1 }
    else counts) ⟨0, 0, 0, 0⟩

/-! ## Dashboard statistics (server, `getDashboardStats`) -/

/-- JavaScript `Math.round` on an exact rational: the nearest integer,
halves rounding up (toward positive infinity). -/
def mathRound (x : ℚ) : ℤ := ⌊x + 1 / 2⌋

/-- The `attendanceRate` computation of `getDashboardStats`: `present` is the
number of window records with status PRESENT, `total` their overall number;
`attendanceRate = total > 0 ? (present / total) * 100 : 0` and the returned
value is `Math.round(attendanceRate * 10) / 10`. The caller-side date-window
restriction (`date >= current_date - interval '30 days'`) is reflected by
taking the already-filtered records as input. -/
def computeAttendanceRate (records : List AttendanceStatus) : ℚ :=
  let present := (records.filter fun r => r == AttendanceStatus.PRESENT).length
  let total := records.length
  let attendanceRate : ℚ := if total > 0 then ((present : ℚ) / (total : ℚ)) * 100 else 0
  (mathRound (attendanceRate * 10) : ℚ) / 10

/-- Spec §4.2: rounding to one decimal place via standard round-half-up on
the first decimal digit. -/
def roundHalfUpTo1 (x : ℚ) : ℚ := ((⌊x * 10 + 1 / 2⌋ : ℤ) : ℚ) / 10

/-! ## Storage layer (server/storage.ts) -/

/-- The conflict target of `createGrade`'s `onConflictDoUpdate`:
`[grades.studentId, grades.assessmentId]`. -/
def gradeConflictsWith (g : InsertGrade) (r : GradeRow) : Bool :=
  r.studentId == g.studentId && r.assessmentId == g.assessmentId

/-- `createGrade(grade)`: insert with `onConflictDoUpdate` on
`(studentId, assessmentId)`, setting `score`, `letterGrade`, `feedback`,
`gradedBy` and `updatedAt := new Date()` on the conflicting row; otherwise a
fresh row is inserted with generated `id` and `gradedAt`/`updatedAt`
defaulting to now. -/
def createGrade (now freshId : Nat) (g : InsertGrade) (rows : List GradeRow) :
    List GradeRow :=
  if rows.any (gradeConflictsWith g) then
    rows.map fun r =>
      if gradeConflictsWith g r then
        { r with score := g.score, letterGrade := g.letterGrade, feedback := g.feedback,
                 gradedBy := g.gradedBy, updatedAt := now }
      else r
  else
    rows ++ [{ id := freshId, studentId := g.studentId, assessmentId := g.assessmentId,
               score := g.score, letterGrade := g.letterGrade, feedback := g.feedback,
               gradedBy := g.gradedBy, gradedAt := now, updatedAt := now }]

/-- `updateGrade(id, grade)`: `db.update(grades).set({...grade, updatedAt:
new Date()}).where(eq(grades.id, id))` — every provided field of the partial
insert, key columns included, overwrites the row with the given id. -/
def updateGrade (now : Nat) (id : Nat) (p : GradePatch) (rows : List GradeRow) :
    List GradeRow :=
  rows.map fun r =>
    if r.id == id then
      { r with studentId := p.studentId.getD r.studentId,
               assessmentId := p.assessmentId.getD r.assessmentId,
               score := p.score.getD r.score,
               letterGrade := p.letterGrade.getD r.letterGrade,
               feedback := p.feedback.getD r.feedback,
               gradedBy := p.gradedBy.getD r.gradedBy,
               updatedAt := now }
    else r

/-- `deleteGrade(id)`: `db.delete(grades).where(eq(grades.id, id))`. -/
def deleteGrade (id : Nat) (rows : List GradeRow) : List GradeRow :=
  rows.filter fun r => r.id != id

/-- The conflict target of `markAttendance`'s `onConflictDoUpdate`:
`[attendance.studentId, attendance.courseId, attendance.date]`. -/
def attendanceConflictsWith (a : InsertAttendance) (r : AttendanceRow) : Bool :=
  r.studentId == a.studentId && r.courseId == a.courseId && r.date == a.date

/-- `markAttendance(attendanceData)`: insert with `onConflictDoUpdate` on
`(studentId, courseId, date)`, setting `status`, `notes`, `markedBy` and
`markedAt := new Date()` on the conflicting row; otherwise a fresh row is
inserted. -/
def markAttendance (now freshId : Nat) (a : InsertAttendance) (rows : List AttendanceRow) :
    List AttendanceRow :=
  if rows.any (attendanceConflictsWith a) then
    rows.map fun r =>
      if attendanceConflictsWith a r then
        { r with status := a.status, notes := a.notes, markedBy := a.markedBy,
                 markedAt := now }
      else r
  else
    rows ++ [{ id := freshId, studentId := a.studentId, courseId := a.courseId,
               date := a.date, status := a.status, notes := a.notes,
               markedBy := a.markedBy, markedAt := now }]

/-- `updateAttendance(id, attendanceData)`:
`db.update(attendance).set(attendanceData).where(eq(attendance.id, id))` —
every provided field of the partial insert overwrites the row with the given
id; `markedAt` is not refreshed by this operation. -/
def updateAttendance (id : Nat) (p : AttendancePatch) (rows : List AttendanceRow) :
    List AttendanceRow :=
  rows.map fun r =>
    if r.id == id then
      { r with studentId := p.studentId.getD r.studentId,
               courseId := p.courseId.getD r.courseId,
               date := p.date.getD r.date,
               status := p.status.getD r.status,
               notes := p.notes.getD r.notes,
               markedBy := p.markedBy.getD r.markedBy }
    else r

/-- Number of grade rows bearing the given (studentId, assessmentId) key. -/
def gradeKeyCount (studentId assessmentId : String) (rows : List GradeRow) : Nat :=
  (rows.filter fun r => r.studentId == studentId && r.assessmentId == assessmentId).length

/-- Number of attendance rows bearing the given (studentId, courseId, date) key. -/
def attendanceKeyCount (studentId courseId date : String) (rows : List AttendanceRow) : Nat :=
  (rows.filter fun r =>
    r.studentId == studentId && r.courseId == courseId && r.date == date).length

/-- The (studentId, assessmentId) keys of a grade table. -/
def gradeKeys (rows : List GradeRow) : List (String × String) :=
  rows.map fun r => (r.studentId, r.assessmentId)

/-- The (studentId, courseId, date) keys of an attendance table. -/
def attendanceKeys (rows : List AttendanceRow) : List (String × String × String) :=
  rows.map fun r => (r.studentId, r.courseId, r.date)

/-- At most one grade row per (studentId, assessmentId) pair. -/
def GradeKeyUnique (rows : List GradeRow) : Prop := (gradeKeys rows).Nodup

/-- At most one attendance row per (studentId, courseId, date) triple. -/
def AttendanceKeyUnique (rows : List AttendanceRow) : Prop := (attendanceKeys rows).Nodup

/-- The mutable tables touched by the verified storage operations. -/
structure Store where
  grades : List GradeRow
  attendance : List AttendanceRow
deriving DecidableEq, Repr

/-- States reachable from the empty store by the repository's grade and
attendance mutations, exactly as the routes expose them (`POST /api/grades`,
`PATCH /api/grades/:id`, `DELETE /api/grades/:id`, `POST /api/attendance`,
`PATCH /api/attendance/:id`; attendance has no delete route). -/
inductive Reachable : Store → Prop where
  | empty : Reachable ⟨[], []⟩
  | stepCreateGrade {s : Store} (now freshId : Nat) (g : InsertGrade) :
      Reachable s → Reachable ⟨createGrade now freshId g s.grades, s.attendance⟩
  | stepUpdateGrade {s : Store} (now id : Nat) (p : GradePatch) :
      Reachable s → Reachable ⟨updateGrade now id p s.grades, s.attendance⟩
  | stepDeleteGrade {s : Store} (id : Nat) :
      Reachable s → Reachable ⟨deleteGrade id s.grades, s.attendance⟩
  | stepMarkAttendance {s : Store} (now freshId : Nat) (a : InsertAttendance) :
      Reachable s → Reachable ⟨s.grades, markAttendance now freshId a s.attendance⟩
  | stepUpdateAttendance {s : Store} (id : Nat) (p : AttendancePatch) :
      Reachable s → Reachable ⟨s.grades, updateAttendance id p s.attendance⟩

/-- Like `Reachable`, but update calls may not patch the upsert-key columns
(`studentId`/`assessmentId` for grades; `studentId`/`courseId`/`date` for
attendance). -/
inductive ReachableSafe : Store → Prop where
  | empty : ReachableSafe ⟨[], []⟩
  | stepCreateGrade {s : Store} (now freshId : Nat) (g : InsertGrade) :
      ReachableSafe s → ReachableSafe ⟨createGrade now freshId g s.grades, s.attendance⟩
  | stepUpdateGrade {s : Store} (now id : Nat) (p : GradePatch)
      (hs : p.studentId = none) (ha : p.assessmentId = none) :
      ReachableSafe s → ReachableSafe ⟨updateGrade now id p s.grades, s.attendance⟩
  | stepDeleteGrade {s : Store} (id : Nat) :
      ReachableSafe s → ReachableSafe ⟨deleteGrade id s.grades, s.attendance⟩
  | stepMarkAttendance {s : Store} (now freshId : Nat) (a : InsertAttendance) :
      ReachableSafe s → ReachableSafe ⟨s.grades, markAttendance now freshId a s.attendance⟩
  | stepUpdateAttendance {s : Store} (id : Nat) (p : AttendancePatch)
      (hs : p.studentId = none) (hc : p.courseId = none) (hd : p.date = none) :
      ReachableSafe s → ReachableSafe ⟨s.grades, updateAttendance id p s.attendance⟩

/-! ## Grade creation route (POST /api/grades) with the schema's foreign keys -/

/-- The failure the database raises on `createGrade` when a referencing
column does not resolve (`references(() => students.id)`,
`references(() => assessments.id)`, `references(() => users.id)` in the
schema); the route surfaces it as a 500 response. -/
inductive GradeStoreError where
  | foreignKeyViolation
deriving DecidableEq, Repr

/-- The rows visible to a grade insert: the referenced `students`,
`assessments` and `users` ids plus the `grades` table itself. -/
structure GradesDB where
  studentIds : List String
  assessmentIds : List String
  userIds : List String
  grades : List GradeRow
deriving DecidableEq, Repr

/-- `POST /api/grades`: `insertGradeSchema.parse` (derived from the column
types only — in this typed embedding it always succeeds, and in particular
imposes no lower bound on `score`), then `storage.createGrade`, whose insert
is subject to the schema's foreign-key references; a violation aborts the
call with no mutation. -/
def createGradeChecked (now freshId : Nat) (g : InsertGrade) (db : GradesDB) :
    Except GradeStoreError GradesDB :=
  if db.studentIds.contains g.studentId && db.assessmentIds.contains g.assessmentId
      && db.userIds.contains g.gradedBy then
    .ok { db with grades := createGrade now freshId g db.grades }
  else
    .error .foreignKeyViolation

/-! ## Concrete instances used by counterexamples and witnesses -/

/-- A grade insert for student s1 on assessment a1. -/
def exInsert1 : InsertGrade := ⟨"s1", "a1", 1, none, none, "u1"⟩

/-- A grade insert for student s2 on the same assessment a1. -/
def exInsert2 : InsertGrade := ⟨"s2", "a1", 1, none, none, "u1"⟩

/-- A PATCH body that rewrites the key column `studentId` to s1. -/
def exKeyPatch : GradePatch := ⟨some "s1", none, none, none, none, none⟩

/-- The store reached by: create a grade for (s1, a1), create a grade for
(s2, a1), then `PATCH /api/grades/2` with body `{studentId: "s1"}`. -/
def badStore : Store :=
  ⟨updateGrade 1 2 exKeyPatch (createGrade 0 2 exInsert2 (createGrade 0 1 exInsert1 [])), []⟩

/-- A one-grade store reached without key-column patches. -/
def safeStore : Store := ⟨createGrade 0 1 exInsert1 [], []⟩

/-- A grade insert used to exercise idempotent replay. -/
def wInsert : InsertGrade := ⟨"s1", "a1", 80, some "B", none, "u1"⟩

/-- Referenced ids for the grade-creation route: one student, one
assessment, one user, no grades yet. -/
def exDB : GradesDB := ⟨["s1"], ["a1"], ["u1"], []⟩

/-- A well-referenced insert carrying a negative score. -/
def exNegInsert : InsertGrade := ⟨"s1", "a1", -5, none, none, "u1"⟩

/-- An insert whose studentId resolves to no `students` row. -/
def exDanglingInsert : InsertGrade := ⟨"sX", "a1", 10, none, none, "u1"⟩

/-- An existing grade row for (s1, a1), graded at tick 3. -/
def wGradeRow : GradeRow := ⟨7, "s1", "a1", 50, none, none, "u0", 3, 3⟩

/-- An existing attendance row for (s1, c1, 2025-01-01), marked at tick 3. -/
def wAttRow : AttendanceRow := ⟨9, "s1", "c1", "2025-01-01", .PRESENT, none, "u0", 3⟩

/-- A replacement insert for the key of `wGradeRow`. -/
def wInsert2 : InsertGrade := ⟨"s1", "a1", 95, some "A", some "good", "u1"⟩

/-- A replacement insert for the key of `wAttRow`. -/
def wAttInsert : InsertAttendance := ⟨"s1", "c1", "2025-01-01", .LATE, some "bus", "u1"⟩

end SMS

namespace SMS

/-! ## Helper lemmas -/

/-- The Gradebook accumulation loop, run with no pending edits, computes the
running pair (totalScore, totalPossible) as the spec's two weighted sums. -/
theorem gradebookTotals_foldl (grades : List Grade) (studentId : String) :
    ∀ (l : List Assessment) (e p : ℚ),
      (l.foldl (fun acc assessment =>
        (acc.1 + (match getGradeForStudentAssessment grades studentId assessment.id with
                  | some g => g.score
                  | none => 0) * assessment.weight,
         acc.2 + assessment.maxScore * assessment.weight)) (e, p))
      = (e + totalEarnedSpec l grades studentId, p + totalPossibleSpec l) := by
  intro l
  induction l with
  | nil =>
    intro e p
    simp [totalEarnedSpec, totalPossibleSpec]
  | cons a t ih =>
    intro e p
    simp only [List.foldl_cons]
    rw [ih]
    simp only [totalEarnedSpec, totalPossibleSpec, scoreOf, List.map_cons, List.sum_cons,
      Prod.mk.injEq]
    constructor <;> ring

/-- `calculateStudentTotal` with no pending edits is the spec §4.1 formula. -/
theorem calculateStudentTotal_eq (assessments : List Assessment) (grades : List Grade)
    (studentId : String) :
    calculateStudentTotal [] assessments grades studentId =
      if 0 < totalPossibleSpec assessments then
        totalEarnedSpec assessments grades studentId / totalPossibleSpec assessments * 100
      else 0 := by
  unfold calculateStudentTotal
  simp only [List.lookup_nil, Option.getD_none]
  rw [gradebookTotals_foldl grades studentId assessments 0 0]
  simp

/-- The `getStatusCounts` fold, from an arbitrary starting counter. -/
theorem getStatusCounts_foldl (statuses : List String) :
    ∀ c : StatusCounts,
      statuses.foldl (fun counts status =>
        if status == "PRESENT" then { counts with PRESENT := counts.PRESENT + 1 }
        else if status == "ABSENT" then { counts with ABSENT := counts.ABSENT + 1 }
        else if status == "LATE" then { counts with LATE := counts.LATE + 1 }
        else if status == "EXCUSED" then { counts with EXCUSED := counts.EXCUSED + 1 }
        else counts) c =
      ⟨c.PRESENT + statuses.count "PRESENT", c.ABSENT + statuses.count "ABSENT",
       c.LATE + statuses.count "LATE", c.EXCUSED + statuses.count "EXCUSED"⟩ := by
  induction statuses with
  | nil => intro c; simp
  | cons s t ih =>
    intro c
    simp only [List.foldl_cons]
    rw [ih]
    by_cases h1 : s = "PRESENT"
    · subst h1; simp [List.count_cons]; omega
    · by_cases h2 : s = "ABSENT"
      · subst h2; simp [List.count_cons]; omega
      · by_cases h3 : s = "LATE"
        · subst h3; simp [List.count_cons, h1]; omega
        · by_cases h4 : s = "EXCUSED"
          · subst h4; simp [List.count_cons, h1]; omega
          · simp [List.count_cons, h1, h2, h3, h4]

/-- Each counter of `getStatusCounts` is the number of occurrences of its
status among the input statuses. -/
theorem getStatusCounts_eq (statuses : List String) :
    getStatusCounts statuses =
      ⟨statuses.count "PRESENT", statuses.count "ABSENT",
       statuses.count "LATE", statuses.count "EXCUSED"⟩ := by
  unfold getStatusCounts
  rw [getStatusCounts_foldl]
  simp

/-- When every status is one of the four recognized values, the four
occurrence counts partition the list. -/
theorem count_four_sum (statuses : List String)
    (hvalid : ∀ s ∈ statuses, s = "PRESENT" ∨ s = "ABSENT" ∨ s = "LATE" ∨ s = "EXCUSED") :
    statuses.count "PRESENT" + statuses.count "ABSENT" + statuses.count "LATE" +
      statuses.count "EXCUSED" = statuses.length := by
  induction statuses with
  | nil => simp
  | cons s t ih =>
    have hs := hvalid s (List.mem_cons_self s t)
    have ht : ∀ x ∈ t, x = "PRESENT" ∨ x = "ABSENT" ∨ x = "LATE" ∨ x = "EXCUSED" :=
      fun x hx => hvalid x (List.mem_cons_of_mem s hx)
    rcases hs with rfl | rfl | rfl | rfl <;>
      simp [List.count_cons, ← ih ht] <;> omega

/-- Filtering the image of a map whose function is invisible to the filter
predicate leaves the filtered length unchanged. -/
theorem length_filter_map_eq {α : Type} (f : α → α) (p : α → Bool)
    (h : ∀ a, p (f a) = p a) (l : List α) :
    ((l.map f).filter p).length = (l.filter p).length := by
  rw [List.filter_map]
  rw [List.length_map]
  congr 1
  apply List.filter_congr
  intro a _
  exact h a

/-- An upserting `createGrade` leaves exactly one row bearing the insert's
key whenever the starting table had at most one (the storage layer's
uniqueness contract for the conflict target). -/
theorem createGrade_keyCount (now freshId : Nat) (g : InsertGrade) (rows : List GradeRow)
    (h : gradeKeyCount g.studentId g.assessmentId rows ≤ 1) :
    gradeKeyCount g.studentId g.assessmentId (createGrade now freshId g rows) = 1 := by
  unfold createGrade
  by_cases hany : rows.any (gradeConflictsWith g) = true
  · rw [if_pos hany]
    unfold gradeKeyCount at *
    rw [length_filter_map_eq]
    · rcases List.any_eq_true.mp hany with ⟨r, hr, hc⟩
      have hmem : r ∈ rows.filter fun r =>
          r.studentId == g.studentId && r.assessmentId == g.assessmentId := by
        rw [List.mem_filter]
        exact ⟨hr, hc⟩
      have : 0 < (rows.filter fun r =>
          r.studentId == g.studentId && r.assessmentId == g.assessmentId).length :=
        List.length_pos.mpr (List.ne_nil_of_mem hmem)
      omega
    · intro r
      by_cases hc : gradeConflictsWith g r = true
      · rw [if_pos hc]
      · rw [if_neg hc]
  · rw [if_neg hany]
    unfold gradeKeyCount at *
    rw [List.filter_append, List.length_append]
    have hzero : (rows.filter fun r =>
        r.studentId == g.studentId && r.assessmentId == g.assessmentId).length = 0 := by
      rw [List.length_eq_zero, List.filter_eq_nil_iff]
      intro r hr
      intro hc
      exact hany (List.any_eq_true.mpr ⟨r, hr, hc⟩)
    rw [hzero]
    simp [gradeConflictsWith]

/-- After `createGrade`, every row bearing the insert's key holds the
insert's values and the refreshed `updatedAt`. -/
theorem createGrade_values (now freshId : Nat) (g : InsertGrade) (rows : List GradeRow) :
    ∀ r' ∈ createGrade now freshId g rows, gradeConflictsWith g r' = true →
      r'.score = g.score ∧ r'.letterGrade = g.letterGrade ∧ r'.feedback = g.feedback ∧
      r'.gradedBy = g.gradedBy ∧ r'.updatedAt = now := by
  intro r' hr' hc'
  unfold createGrade at hr'
  by_cases hany : rows.any (gradeConflictsWith g) = true
  · rw [if_pos hany] at hr'
    rcases List.mem_map.mp hr' with ⟨r, hr, heq⟩
    by_cases hc : gradeConflictsWith g r = true
    · rw [if_pos hc] at heq
      subst heq
      exact ⟨rfl, rfl, rfl, rfl, rfl⟩
    · rw [if_neg hc] at heq
      subst heq
      exact absurd hc' hc
  · rw [if_neg hany] at hr'
    rcases List.mem_append.mp hr' with hmem | hmem
    · exact absurd (List.any_eq_true.mpr ⟨r', hmem, hc'⟩) hany
    · rcases List.mem_singleton.mp hmem with rfl
      exact ⟨rfl, rfl, rfl, rfl, rfl⟩

/-- An upserting `markAttendance` leaves exactly one row bearing the
insert's key whenever the starting table had at most one. -/
theorem markAttendance_keyCount (now freshId : Nat) (a : InsertAttendance)
    (rows : List AttendanceRow)
    (h : attendanceKeyCount a.studentId a.courseId a.date rows ≤ 1) :
    attendanceKeyCount a.studentId a.courseId a.date (markAttendance now freshId a rows) = 1 := by
  unfold markAttendance
  by_cases hany : rows.any (attendanceConflictsWith a) = true
  · rw [if_pos hany]
    unfold attendanceKeyCount at *
    rw [length_filter_map_eq]
    · rcases List.any_eq_true.mp hany with ⟨r, hr, hc⟩
      have hmem : r ∈ rows.filter fun r =>
          r.studentId == a.studentId && r.courseId == a.courseId && r.date == a.date := by
        rw [List.mem_filter]
        exact ⟨hr, hc⟩
      have : 0 < (rows.filter fun r =>
          r.studentId == a.studentId && r.courseId == a.courseId && r.date == a.date).length :=
        List.length_pos.mpr (List.ne_nil_of_mem hmem)
      omega
    · intro r
      by_cases hc : attendanceConflictsWith a r = true
      · rw [if_pos hc]
      · rw [if_neg hc]
  · rw [if_neg hany]
    unfold attendanceKeyCount at *
    rw [List.filter_append, List.length_append]
    have hzero : (rows.filter fun r =>
        r.studentId == a.studentId && r.courseId == a.courseId && r.date == a.date).length = 0 := by
      rw [List.length_eq_zero, List.filter_eq_nil_iff]
      intro r hr hc
      exact hany (List.any_eq_true.mpr ⟨r, hr, hc⟩)
    rw [hzero]
    simp [attendanceConflictsWith]

/-- After `markAttendance`, every row bearing the insert's key holds the
insert's status, notes and actor and the refreshed `markedAt`. -/
theorem markAttendance_values (now freshId : Nat) (a : InsertAttendance)
    (rows : List AttendanceRow) :
    ∀ r' ∈ markAttendance now freshId a rows, attendanceConflictsWith a r' = true →
      r'.status = a.status ∧ r'.notes = a.notes ∧ r'.markedBy = a.markedBy ∧
      r'.markedAt = now := by
  intro r' hr' hc'
  unfold markAttendance at hr'
  by_cases hany : rows.any (attendanceConflictsWith a) = true
  · rw [if_pos hany] at hr'
    rcases List.mem_map.mp hr' with ⟨r, hr, heq⟩
    by_cases hc : attendanceConflictsWith a r = true
    · rw [if_pos hc] at heq
      subst heq
      exact ⟨rfl, rfl, rfl, rfl⟩
    · rw [if_neg hc] at heq
      subst heq
      exact absurd hc' hc
  · rw [if_neg hany] at hr'
    rcases List.mem_append.mp hr' with hmem | hmem
    · exact absurd (List.any_eq_true.mpr ⟨r', hmem, hc'⟩) hany
    · rcases List.mem_singleton.mp hmem with rfl
      exact ⟨rfl, rfl, rfl, rfl⟩

end SMS

namespace SMS

/-- `createGrade` preserves key uniqueness: the conflict branch rewrites no
key column and the insert branch only fires when no row bears the key. -/
theorem createGrade_keyUnique (now freshId : Nat) (g : InsertGrade) (rows : List GradeRow)
    (h : GradeKeyUnique rows) : GradeKeyUnique (createGrade now freshId g rows) := by
  unfold createGrade
  by_cases hany : rows.any (gradeConflictsWith g) = true
  · rw [if_pos hany]
    unfold GradeKeyUnique gradeKeys at *
    rw [List.map_map]
    have : ((fun r : GradeRow => (r.studentId, r.assessmentId)) ∘ fun r =>
        if gradeConflictsWith g r then
          { r with score := g.score, letterGrade := g.letterGrade, feedback := g.feedback,
                   gradedBy := g.gradedBy, updatedAt := now }
        else r) = fun r : GradeRow => (r.studentId, r.assessmentId) := by
      funext r
      by_cases hc : gradeConflictsWith g r = true
      · simp [Function.comp, hc]
      · simp [Function.comp, hc]
    rw [this]
    exact h
  · rw [if_neg hany]
    unfold GradeKeyUnique gradeKeys at *
    rw [List.map_append]
    rw [List.nodup_append]
    refine ⟨h, by simp, ?_⟩
    intro x hx
    rcases List.mem_map.mp hx with ⟨r, hr, rfl⟩
    simp only [List.map_cons, List.map_nil, List.mem_singleton]
    intro hkey
    have heq := Prod.mk.inj hkey
    have : gradeConflictsWith g r = true := by
      simp [gradeConflictsWith, heq.1, heq.2]
    exact hany (List.any_eq_true.mpr ⟨r, hr, this⟩)

/-- `updateGrade` with a patch that omits the key columns preserves key
uniqueness. -/
theorem updateGrade_keyUnique (now id : Nat) (p : GradePatch)
    (hs : p.studentId = none) (ha : p.assessmentId = none) (rows : List GradeRow)
    (h : GradeKeyUnique rows) : GradeKeyUnique (updateGrade now id p rows) := by
  unfold updateGrade GradeKeyUnique gradeKeys at *
  rw [List.map_map]
  have : ((fun r : GradeRow => (r.studentId, r.assessmentId)) ∘ fun r =>
      if r.id == id then
        { r with studentId := p.studentId.getD r.studentId,
                 assessmentId := p.assessmentId.getD r.assessmentId,
                 score := p.score.getD r.score,
                 letterGrade := p.letterGrade.getD r.letterGrade,
                 feedback := p.feedback.getD r.feedback,
                 gradedBy := p.gradedBy.getD r.gradedBy,
                 updatedAt := now }
      else r) = fun r : GradeRow => (r.studentId, r.assessmentId) := by
    funext r
    by_cases hc : (r.id == id) = true
    · simp [Function.comp, hc, hs, ha]
    · simp [Function.comp, hc]
  rw [this]
  exact h

/-- `deleteGrade` preserves key uniqueness (the result is a sublist). -/
theorem deleteGrade_keyUnique (id : Nat) (rows : List GradeRow)
    (h : GradeKeyUnique rows) : GradeKeyUnique (deleteGrade id rows) := by
  unfold deleteGrade GradeKeyUnique gradeKeys at *
  exact h.sublist (List.Sublist.map _ (List.filter_sublist rows))

/-- `markAttendance` preserves key uniqueness. -/
theorem markAttendance_keyUnique (now freshId : Nat) (a : InsertAttendance)
    (rows : List AttendanceRow)
    (h : AttendanceKeyUnique rows) : AttendanceKeyUnique (markAttendance now freshId a rows) := by
  unfold markAttendance
  by_cases hany : rows.any (attendanceConflictsWith a) = true
  · rw [if_pos hany]
    unfold AttendanceKeyUnique attendanceKeys at *
    rw [List.map_map]
    have : ((fun r : AttendanceRow => (r.studentId, r.courseId, r.date)) ∘ fun r =>
        if attendanceConflictsWith a r then
          { r with status := a.status, notes := a.notes, markedBy := a.markedBy,
                   markedAt := now }
        else r) = fun r : AttendanceRow => (r.studentId, r.courseId, r.date) := by
      funext r
      by_cases hc : attendanceConflictsWith a r = true
      · simp [Function.comp, hc]
      · simp [Function.comp, hc]
    rw [this]
    exact h
  · rw [if_neg hany]
    unfold AttendanceKeyUnique attendanceKeys at *
    rw [List.map_append, List.nodup_append]
    refine ⟨h, by simp, ?_⟩
    intro x hx
    rcases List.mem_map.mp hx with ⟨r, hr, rfl⟩
    simp only [List.map_cons, List.map_nil, List.mem_singleton]
    intro hkey
    have heq := Prod.mk.inj hkey
    have heq2 := Prod.mk.inj heq.2
    have : attendanceConflictsWith a r = true := by
      simp [attendanceConflictsWith, heq.1, heq2.1, heq2.2]
    exact hany (List.any_eq_true.mpr ⟨r, hr, this⟩)

/-- `updateAttendance` with a patch that omits the key columns preserves key
uniqueness. -/
theorem updateAttendance_keyUnique (id : Nat) (p : AttendancePatch)
    (hs : p.studentId = none) (hc : p.courseId = none) (hd : p.date = none)
    (rows : List AttendanceRow)
    (h : AttendanceKeyUnique rows) : AttendanceKeyUnique (updateAttendance id p rows) := by
  unfold updateAttendance AttendanceKeyUnique attendanceKeys at *
  rw [List.map_map]
  have : ((fun r : AttendanceRow => (r.studentId, r.courseId, r.date)) ∘ fun r =>
      if r.id == id then
        { r with studentId := p.studentId.getD r.studentId,
                 courseId := p.courseId.getD r.courseId,
                 date := p.date.getD r.date,
                 status := p.status.getD r.status,
                 notes := p.notes.getD r.notes,
                 markedBy := p.markedBy.getD r.markedBy }
      else r) = fun r : AttendanceRow => (r.studentId, r.courseId, r.date) := by
    funext r
    by_cases hci : (r.id == id) = true
    · simp [Function.comp, hci, hs, hc, hd]
    · simp [Function.comp, hci]
  rw [this]
  exact h

/-! ## Claims -/

/-- Claim C1: for every set of assessments (each with maxScore > 0 and
weight > 0), every set of grade records and every studentId, the course
percentage (`calculateStudentTotal` with no pending edits) equals
`(Σ scoreOf(a)·weight(a)) / (Σ maxScore(a)·weight(a)) · 100` when the
weighted denominator is positive and 0 otherwise, where `scoreOf(a)` is the
score of the student's grade for `a` if one exists and 0 if none exists; in
particular, for assessments {maxScore 100, weight 1} and
{maxScore 50, weight 1/2} with a single recorded score of 80 on the first
and no grade on the second, the result is 64. -/
theorem claim_C1_computeCoursePercentage
    (assessments : List Assessment) (grades : List Grade) (studentId : String)
    (hpos : ∀ a ∈ assessments, 0 < a.maxScore ∧ 0 < a.weight) :
    (calculateStudentTotal [] assessments grades studentId =
      if 0 < totalPossibleSpec assessments then
        totalEarnedSpec assessments grades studentId / totalPossibleSpec assessments * 100
      else 0) ∧
    calculateStudentTotal [] [⟨"midterm", 100, 1⟩, ⟨"quiz", 50, 1/2⟩]
      [⟨"stu", "midterm", 80⟩] "stu" = 64 := by
  refine ⟨calculateStudentTotal_eq assessments grades studentId, ?_⟩
  simp [calculateStudentTotal, getGradeForStudentAssessment]
  norm_num

/-- Witness for C1 at a concrete input. -/
theorem claim_C1_witness :
    (∀ a ∈ [(⟨"midterm", 100, 1⟩ : Assessment)], 0 < a.maxScore ∧ 0 < a.weight) ∧
    ((calculateStudentTotal [] [⟨"midterm", 100, 1⟩] [] "stu" =
      if 0 < totalPossibleSpec [⟨"midterm", 100, 1⟩] then
        totalEarnedSpec [⟨"midterm", 100, 1⟩] [] "stu" /
          totalPossibleSpec [⟨"midterm", 100, 1⟩] * 100
      else 0) ∧
    calculateStudentTotal [] [⟨"midterm", 100, 1⟩, ⟨"quiz", 50, 1/2⟩]
      [⟨"stu", "midterm", 80⟩] "stu" = 64) := by
  have hpos : ∀ a ∈ [(⟨"midterm", 100, 1⟩ : Assessment)], 0 < a.maxScore ∧ 0 < a.weight := by
    intro a ha
    rw [List.mem_singleton] at ha
    subst ha
    constructor <;> norm_num
  exact ⟨hpos, claim_C1_computeCoursePercentage [⟨"midterm", 100, 1⟩] [] "stu" hpos⟩

/-- Claim C2: `getLetterGrade` under the hard-coded default boundaries maps
p ≥ 90 to A, 80 ≤ p < 90 to B, 70 ≤ p < 80 to C, 60 ≤ p < 70 to D and
everything below to F; in particular 92 ↦ A, 89.9 ↦ B, 60 ↦ D, 59.9 ↦ F. -/
theorem claim_C2_letterGradeBoundaries (p : ℚ) :
    ((90 ≤ p → getLetterGrade p = "A") ∧
     (80 ≤ p → p < 90 → getLetterGrade p = "B") ∧
     (70 ≤ p → p < 80 → getLetterGrade p = "C") ∧
     (60 ≤ p → p < 70 → getLetterGrade p = "D") ∧
     (p < 60 → getLetterGrade p = "F")) ∧
    (getLetterGrade 92 = "A" ∧ getLetterGrade (89.9 : ℚ) = "B" ∧
     getLetterGrade 60 = "D" ∧ getLetterGrade (59.9 : ℚ) = "F") := by
  constructor
  · unfold getLetterGrade
    refine ⟨?_, ?_, ?_, ?_, ?_⟩ <;> intros <;>
      repeat first
        | (rw [if_pos (by linarith)])
        | (rw [if_neg (by linarith)])
  · refine ⟨?_, ?_, ?_, ?_⟩ <;> norm_num [getLetterGrade]

/-- Witness for C2 at the concrete percentage 92. -/
theorem claim_C2_witness : (90 : ℚ) ≤ 92 ∧ getLetterGrade 92 = "A" :=
  ⟨by norm_num, (claim_C2_letterGradeBoundaries 92).1.1 (by norm_num)⟩

/-- Claim C3: replaying `createGrade` with an identical insert, from any
stored state (one in which the storage layer's uniqueness contract holds for
the insert's key), leaves exactly one grade row for that
(studentId, assessmentId) key and that row holds the insert's score. -/
theorem claim_C3_createGrade_idempotent (now1 id1 now2 id2 : Nat) (g : InsertGrade)
    (rows : List GradeRow)
    (h : gradeKeyCount g.studentId g.assessmentId rows ≤ 1) :
    gradeKeyCount g.studentId g.assessmentId
        (createGrade now2 id2 g (createGrade now1 id1 g rows)) = 1 ∧
    ∀ r ∈ createGrade now2 id2 g (createGrade now1 id1 g rows),
      r.studentId = g.studentId → r.assessmentId = g.assessmentId → r.score = g.score := by
  have h1 : gradeKeyCount g.studentId g.assessmentId (createGrade now1 id1 g rows) = 1 :=
    createGrade_keyCount now1 id1 g rows h
  refine ⟨createGrade_keyCount now2 id2 g _ (le_of_eq h1), ?_⟩
  intro r hr hs ha
  have hc : gradeConflictsWith g r = true := by
    simp [gradeConflictsWith, hs, ha]
  exact (createGrade_values now2 id2 g _ r hr hc).1

/-- Witness for C3: replaying `wInsert` from the empty table. -/
theorem claim_C3_witness :
    gradeKeyCount wInsert.studentId wInsert.assessmentId [] ≤ 1 ∧
    (gradeKeyCount wInsert.studentId wInsert.assessmentId
        (createGrade 1 2 wInsert (createGrade 0 1 wInsert [])) = 1 ∧
    ∀ r ∈ createGrade 1 2 wInsert (createGrade 0 1 wInsert []),
      r.studentId = wInsert.studentId → r.assessmentId = wInsert.assessmentId →
        r.score = wInsert.score) := by
  have h : gradeKeyCount wInsert.studentId wInsert.assessmentId [] ≤ 1 := by
    simp [gradeKeyCount]
  exact ⟨h, claim_C3_createGrade_idempotent 0 1 1 2 wInsert [] h⟩

end SMS

namespace SMS

/-- Claim C4 fails as stated: `badStore` is reachable from the empty store
by `createGrade`, `createGrade`, `updateGrade`, yet it carries two grade
rows for the key (s1, a1) — `PATCH /api/grades/:id` accepts the key columns
in its partial body and the schema declares no composite unique constraint
that would block the collision. -/
theorem claim_C4_counterexample :
    Reachable badStore ∧
      ¬(GradeKeyUnique badStore.grades ∧ AttendanceKeyUnique badStore.attendance) := by
  constructor
  · exact Reachable.stepUpdateGrade 1 2 exKeyPatch
      (Reachable.stepCreateGrade 0 2 exInsert2
        (Reachable.stepCreateGrade (s := ⟨[], []⟩) 0 1 exInsert1 Reachable.empty))
  · intro hcontra
    have := hcontra.1
    unfold GradeKeyUnique gradeKeys badStore at this
    simp [updateGrade, createGrade, exInsert1, exInsert2, exKeyPatch,
      gradeConflictsWith] at this

/-- Claim C4 (amended): in every state reachable from the empty store by the
operations, where the update operations do not patch the upsert-key columns,
there is at most one grade row per (studentId, assessmentId) pair and at
most one attendance row per (studentId, courseId, date) triple. -/
theorem claim_C4_keyUniqueness_amended (s : Store) (h : ReachableSafe s) :
    GradeKeyUnique s.grades ∧ AttendanceKeyUnique s.attendance := by
  induction h with
  | empty => exact ⟨List.nodup_nil, List.nodup_nil⟩
  | stepCreateGrade now freshId g _ ih =>
    exact ⟨createGrade_keyUnique now freshId g _ ih.1, ih.2⟩
  | stepUpdateGrade now id p hs ha _ ih =>
    exact ⟨updateGrade_keyUnique now id p hs ha _ ih.1, ih.2⟩
  | stepDeleteGrade id _ ih =>
    exact ⟨deleteGrade_keyUnique id _ ih.1, ih.2⟩
  | stepMarkAttendance now freshId a _ ih =>
    exact ⟨ih.1, markAttendance_keyUnique now freshId a _ ih.2⟩
  | stepUpdateAttendance id p hs hc hd _ ih =>
    exact ⟨ih.1, updateAttendance_keyUnique id p hs hc hd _ ih.2⟩

/-- Witness for the amended C4 at a concrete reachable store. -/
theorem claim_C4_witness :
    ReachableSafe safeStore ∧
      (GradeKeyUnique safeStore.grades ∧ AttendanceKeyUnique safeStore.attendance) := by
  have hsafe : ReachableSafe safeStore :=
    ReachableSafe.stepCreateGrade (s := ⟨[], []⟩) 0 1 exInsert1 ReachableSafe.empty
  exact ⟨hsafe, claim_C4_keyUniqueness_amended safeStore hsafe⟩

/-- Claim C5: `markAttendance` with status PRESENT and then status ABSENT for
the same (studentId, courseId, date) key, from any stored state satisfying
the key's uniqueness contract, leaves exactly one attendance row for that
key, and that row has status ABSENT, the second call's notes and actor, and
the second call's timestamp — last write wins, no merge. -/
theorem claim_C5_lastWriteWins (now1 id1 now2 id2 : Nat) (sid cid d : String)
    (n1 n2 : Option String) (m1 m2 : String) (rows : List AttendanceRow)
    (h : attendanceKeyCount sid cid d rows ≤ 1) :
    attendanceKeyCount sid cid d
        (markAttendance now2 id2 ⟨sid, cid, d, .ABSENT, n2, m2⟩
          (markAttendance now1 id1 ⟨sid, cid, d, .PRESENT, n1, m1⟩ rows)) = 1 ∧
    ∀ r ∈ markAttendance now2 id2 ⟨sid, cid, d, .ABSENT, n2, m2⟩
        (markAttendance now1 id1 ⟨sid, cid, d, .PRESENT, n1, m1⟩ rows),
      r.studentId = sid → r.courseId = cid → r.date = d →
        r.status = .ABSENT ∧ r.notes = n2 ∧ r.markedBy = m2 ∧ r.markedAt = now2 := by
  have h1 : attendanceKeyCount sid cid d
      (markAttendance now1 id1 ⟨sid, cid, d, .PRESENT, n1, m1⟩ rows) = 1 :=
    markAttendance_keyCount now1 id1 ⟨sid, cid, d, .PRESENT, n1, m1⟩ rows h
  refine ⟨markAttendance_keyCount now2 id2 ⟨sid, cid, d, .ABSENT, n2, m2⟩ _ (le_of_eq h1), ?_⟩
  intro r hr hs hc hd
  have hcf : attendanceConflictsWith ⟨sid, cid, d, .ABSENT, n2, m2⟩ r = true := by
    simp [attendanceConflictsWith, hs, hc, hd]
  exact markAttendance_values now2 id2 _ _ r hr hcf

/-- Witness for C5: marking PRESENT then ABSENT from the empty table. -/
theorem claim_C5_witness :
    attendanceKeyCount "s1" "c1" "2025-01-01" [] ≤ 1 ∧
    (attendanceKeyCount "s1" "c1" "2025-01-01"
        (markAttendance 1 2 ⟨"s1", "c1", "2025-01-01", .ABSENT, none, "u2"⟩
          (markAttendance 0 1 ⟨"s1", "c1", "2025-01-01", .PRESENT, none, "u1"⟩ [])) = 1 ∧
    ∀ r ∈ markAttendance 1 2 ⟨"s1", "c1", "2025-01-01", .ABSENT, none, "u2"⟩
        (markAttendance 0 1 ⟨"s1", "c1", "2025-01-01", .PRESENT, none, "u1"⟩ []),
      r.studentId = "s1" → r.courseId = "c1" → r.date = "2025-01-01" →
        r.status = .ABSENT ∧ r.notes = none ∧ r.markedBy = "u2" ∧ r.markedAt = 1) := by
  have h : attendanceKeyCount "s1" "c1" "2025-01-01" [] ≤ 1 := by
    simp [attendanceKeyCount]
  exact ⟨h, claim_C5_lastWriteWins 0 1 1 2 "s1" "c1" "2025-01-01" none none "u1" "u2" [] h⟩

end SMS

namespace SMS

/-- Claim C7 fails as stated: with resolving references, `createGradeChecked`
accepts a negative score — `insertGradeSchema` imposes no lower bound and no
other code path rejects it — and stores the row with score -5 instead of
failing with a validation error. -/
theorem claim_C7_counterexample :
    exNegInsert.score < 0 ∧
    createGradeChecked 0 1 exNegInsert exDB =
      .ok ⟨["s1"], ["a1"], ["u1"],
        [⟨1, "s1", "a1", -5, none, none, "u1", 0, 0⟩]⟩ := by
  constructor
  · norm_num [exNegInsert]
  · rfl

/-- Claim C7 (amended): `createGradeChecked` fails (with a foreign-key
violation and no mutation) exactly when one of the referenced ids does not
resolve; when all references resolve the call succeeds and upserts — for any
score, negative scores included. -/
theorem claim_C7_referenceErrors_amended (now freshId : Nat) (g : InsertGrade)
    (db : GradesDB) :
    (¬(db.studentIds.contains g.studentId = true ∧
       db.assessmentIds.contains g.assessmentId = true ∧
       db.userIds.contains g.gradedBy = true) →
      createGradeChecked now freshId g db = .error .foreignKeyViolation) ∧
    (db.studentIds.contains g.studentId = true →
     db.assessmentIds.contains g.assessmentId = true →
     db.userIds.contains g.gradedBy = true →
      createGradeChecked now freshId g db =
        .ok { db with grades := createGrade now freshId g db.grades }) := by
  unfold createGradeChecked
  constructor
  · intro hnot
    rw [if_neg]
    intro hand
    apply hnot
    simp only [Bool.and_eq_true] at hand
    exact ⟨hand.1.1, hand.1.2, hand.2⟩
  · intro h1 h2 h3
    have hcond : (db.studentIds.contains g.studentId &&
        db.assessmentIds.contains g.assessmentId && db.userIds.contains g.gradedBy) = true := by
      rw [h1, h2, h3]; rfl
    rw [if_pos hcond]

/-- Witness for the amended C7: a dangling studentId is rejected. -/
theorem claim_C7_witness :
    ¬(exDB.studentIds.contains exDanglingInsert.studentId = true ∧
      exDB.assessmentIds.contains exDanglingInsert.assessmentId = true ∧
      exDB.userIds.contains exDanglingInsert.gradedBy = true) ∧
    createGradeChecked 0 1 exDanglingInsert exDB = .error .foreignKeyViolation := by
  have h : ¬(exDB.studentIds.contains exDanglingInsert.studentId = true ∧
      exDB.assessmentIds.contains exDanglingInsert.assessmentId = true ∧
      exDB.userIds.contains exDanglingInsert.gradedBy = true) := by
    intro hand
    exact absurd hand.1 (by decide)
  exact ⟨h, (claim_C7_referenceErrors_amended 0 1 exDanglingInsert exDB).1 h⟩

/-- Claim C8: `getStatusCounts` returns one counter per status, each equal
to the number of records bearing that status, and — when every status is one
of the four recognized values, as the attendance enum guarantees — the four
counters sum to the number of records; over 10 records with 6 PRESENT, 2
ABSENT, 1 LATE, 1 EXCUSED it returns counts (6, 2, 1, 1). -/
theorem claim_C8_summarizeSession (statuses : List String)
    (hvalid : ∀ s ∈ statuses, s = "PRESENT" ∨ s = "ABSENT" ∨ s = "LATE" ∨ s = "EXCUSED") :
    (getStatusCounts statuses =
      ⟨statuses.count "PRESENT", statuses.count "ABSENT",
       statuses.count "LATE", statuses.count "EXCUSED"⟩ ∧
     (getStatusCounts statuses).PRESENT + (getStatusCounts statuses).ABSENT +
       (getStatusCounts statuses).LATE + (getStatusCounts statuses).EXCUSED =
       statuses.length) ∧
    getStatusCounts (List.replicate 6 "PRESENT" ++ List.replicate 2 "ABSENT" ++
      ["LATE", "EXCUSED"]) = ⟨6, 2, 1, 1⟩ := by
  refine ⟨⟨getStatusCounts_eq statuses, ?_⟩, by decide⟩
  rw [getStatusCounts_eq statuses]
  exact count_four_sum statuses hvalid

/-- Witness for C8 on the 10-record session. -/
theorem claim_C8_witness :
    (∀ s ∈ List.replicate 6 "PRESENT" ++ List.replicate 2 "ABSENT" ++ ["LATE", "EXCUSED"],
      s = "PRESENT" ∨ s = "ABSENT" ∨ s = "LATE" ∨ s = "EXCUSED") ∧
    ((getStatusCounts (List.replicate 6 "PRESENT" ++ List.replicate 2 "ABSENT" ++
        ["LATE", "EXCUSED"]) =
      ⟨(List.replicate 6 "PRESENT" ++ List.replicate 2 "ABSENT" ++
          ["LATE", "EXCUSED"]).count "PRESENT",
       (List.replicate 6 "PRESENT" ++ List.replicate 2 "ABSENT" ++
          ["LATE", "EXCUSED"]).count "ABSENT",
       (List.replicate 6 "PRESENT" ++ List.replicate 2 "ABSENT" ++
          ["LATE", "EXCUSED"]).count "LATE",
       (List.replicate 6 "PRESENT" ++ List.replicate 2 "ABSENT" ++
          ["LATE", "EXCUSED"]).count "EXCUSED"⟩ ∧
     (getStatusCounts (List.replicate 6 "PRESENT" ++ List.replicate 2 "ABSENT" ++
        ["LATE", "EXCUSED"])).PRESENT +
       (getStatusCounts (List.replicate 6 "PRESENT" ++ List.replicate 2 "ABSENT" ++
        ["LATE", "EXCUSED"])).ABSENT +
       (getStatusCounts (List.replicate 6 "PRESENT" ++ List.replicate 2 "ABSENT" ++
        ["LATE", "EXCUSED"])).LATE +
       (getStatusCounts (List.replicate 6 "PRESENT" ++ List.replicate 2 "ABSENT" ++
        ["LATE", "EXCUSED"])).EXCUSED =
       (List.replicate 6 "PRESENT" ++ List.replicate 2 "ABSENT" ++
        ["LATE", "EXCUSED"]).length) ∧
    getStatusCounts (List.replicate 6 "PRESENT" ++ List.replicate 2 "ABSENT" ++
      ["LATE", "EXCUSED"]) = ⟨6, 2, 1, 1⟩) := by
  have hvalid : ∀ s ∈ List.replicate 6 "PRESENT" ++ List.replicate 2 "ABSENT" ++
      ["LATE", "EXCUSED"],
      s = "PRESENT" ∨ s = "ABSENT" ∨ s = "LATE" ∨ s = "EXCUSED" := by decide
  exact ⟨hvalid, claim_C8_summarizeSession _ hvalid⟩

/-- Claim C9: `computeAttendanceRate` returns `(present / total) * 100`
rounded to one decimal place by round-half-up on the first decimal digit
(the code's `Math.round(rate * 10) / 10`), and 0 when there are no records;
over 30 records of which 27 are PRESENT it returns exactly 90. -/
theorem claim_C9_attendanceRate :
    (∀ records : List AttendanceStatus,
      computeAttendanceRate records =
        if 0 < records.length then
          roundHalfUpTo1
            ((((records.filter fun r => r == AttendanceStatus.PRESENT).length : ℚ) /
              (records.length : ℚ)) * 100)
        else 0) ∧
    computeAttendanceRate (List.replicate 27 AttendanceStatus.PRESENT ++
      List.replicate 3 AttendanceStatus.ABSENT) = 90 := by
  constructor
  · intro records
    unfold computeAttendanceRate roundHalfUpTo1 mathRound
    by_cases h : 0 < records.length
    · simp [h]
    · simp [h]
      norm_num
  · simp [computeAttendanceRate, mathRound]
    norm_num

/-- Claim C10: when `createGrade` hits a (studentId, assessmentId) conflict
the replaced row keeps its id, key columns and original `gradedAt`, and only
score, letterGrade, feedback, gradedBy and updatedAt are overwritten; when
`markAttendance` hits a (studentId, courseId, date) conflict the replaced
row keeps its id and key columns, and only status, notes, markedBy and
markedAt are overwritten. -/
theorem claim_C10_frameOnConflict
    (growsA : List GradeRow) (g : InsertGrade) (nowG idG : Nat) (rg : GradeRow)
    (hrg : rg ∈ growsA) (hcg : gradeConflictsWith g rg = true)
    (arows : List AttendanceRow) (a : InsertAttendance) (nowA idA : Nat) (ra : AttendanceRow)
    (hra : ra ∈ arows) (hca : attendanceConflictsWith a ra = true) :
    (∃ r' ∈ createGrade nowG idG g growsA,
      r'.id = rg.id ∧ r'.gradedAt = rg.gradedAt ∧
      r'.studentId = rg.studentId ∧ r'.assessmentId = rg.assessmentId ∧
      r'.score = g.score ∧ r'.letterGrade = g.letterGrade ∧
      r'.feedback = g.feedback ∧ r'.gradedBy = g.gradedBy ∧ r'.updatedAt = nowG) ∧
    (∃ r' ∈ markAttendance nowA idA a arows,
      r'.id = ra.id ∧ r'.studentId = ra.studentId ∧ r'.courseId = ra.courseId ∧
      r'.date = ra.date ∧
      r'.status = a.status ∧ r'.notes = a.notes ∧ r'.markedBy = a.markedBy ∧
      r'.markedAt = nowA) := by
  constructor
  · have hany : growsA.any (gradeConflictsWith g) = true :=
      List.any_eq_true.mpr ⟨rg, hrg, hcg⟩
    refine ⟨{ rg with score := g.score, letterGrade := g.letterGrade, feedback := g.feedback,
                      gradedBy := g.gradedBy, updatedAt := nowG }, ?_, ?_⟩
    · unfold createGrade
      rw [if_pos hany]
      exact List.mem_map.mpr ⟨rg, hrg, by simp [hcg]⟩
    · exact ⟨rfl, rfl, rfl, rfl, rfl, rfl, rfl, rfl, rfl⟩
  · have hany : arows.any (attendanceConflictsWith a) = true :=
      List.any_eq_true.mpr ⟨ra, hra, hca⟩
    refine ⟨{ ra with status := a.status, notes := a.notes, markedBy := a.markedBy,
                      markedAt := nowA }, ?_, ?_⟩
    · unfold markAttendance
      rw [if_pos hany]
      exact List.mem_map.mpr ⟨ra, hra, by simp [hca]⟩
    · exact ⟨rfl, rfl, rfl, rfl, rfl, rfl, rfl, rfl⟩

/-- Witness for C10: replacing the concrete rows `wGradeRow` and `wAttRow`. -/
theorem claim_C10_witness :
    (wGradeRow ∈ [wGradeRow] ∧ gradeConflictsWith wInsert2 wGradeRow = true ∧
     wAttRow ∈ [wAttRow] ∧ attendanceConflictsWith wAttInsert wAttRow = true) ∧
    ((∃ r' ∈ createGrade 5 8 wInsert2 [wGradeRow],
      r'.id = wGradeRow.id ∧ r'.gradedAt = wGradeRow.gradedAt ∧
      r'.studentId = wGradeRow.studentId ∧ r'.assessmentId = wGradeRow.assessmentId ∧
      r'.score = wInsert2.score ∧ r'.letterGrade = wInsert2.letterGrade ∧
      r'.feedback = wInsert2.feedback ∧ r'.gradedBy = wInsert2.gradedBy ∧
      r'.updatedAt = 5) ∧
    (∃ r' ∈ markAttendance 5 8 wAttInsert [wAttRow],
      r'.id = wAttRow.id ∧ r'.studentId = wAttRow.studentId ∧
      r'.courseId = wAttRow.courseId ∧ r'.date = wAttRow.date ∧
      r'.status = wAttInsert.status ∧ r'.notes = wAttInsert.notes ∧
      r'.markedBy = wAttInsert.markedBy ∧ r'.markedAt = 5)) := by
  have hrg : wGradeRow ∈ [wGradeRow] := List.mem_singleton.mpr rfl
  have hcg : gradeConflictsWith wInsert2 wGradeRow = true := by decide
  have hra : wAttRow ∈ [wAttRow] := List.mem_singleton.mpr rfl
  have hca : attendanceConflictsWith wAttInsert wAttRow = true := by decide
  exact ⟨⟨hrg, hcg, hra, hca⟩,
    claim_C10_frameOnConflict [wGradeRow] wInsert2 5 8 wGradeRow hrg hcg
      [wAttRow] wAttInsert 5 8 wAttRow hra hca⟩

end SMS
